import Mathlib

/-!
# WallaPy search-fetch-filter pipeline: a shallow embedding

This file embeds the core of the WallaPy repository (the Wallapop
marketplace search client) into Lean 4 and proves the testable
properties of its design document against that embedding.

The embedding follows the Python source:

* `src/wallapy/check.py` — `WallaPyClient._process_wallapop_item`
  (normalisation + filtering of one raw listing) and
  `WallaPyClient.check_wallapop` (orchestration, dedup loop);
* `src/wallapy/fetch_api.py` — `setup_url` and `fetch_wallapop_items`
  (pagination loop with an item budget);
* `src/wallapy/config.py` — the default fuzzy thresholds.

The repository's `utils.py`, `exceptions.py` and `request_handler.py`
modules are not part of the sources; the helpers they provide
(`clean_text`, `contains_excluded_terms`, `validate_prices`,
`make_link`, the transport, and the external `fuzz.partial_ratio`
string-similarity primitive) are modelled from the design document and
clearly marked as such.  Wherever a filtering result depends on the
similarity primitive the functions are parameterised over an arbitrary
score function `ratio : String → String → Nat`, so the theorems hold
for every fuzzy scorer.

Python conventions that matter and how they are rendered:

* dictionary access `d.get(k)` / `d.get(k, default)` — `Option` fields
  with `Option.getD`;
* Python truthiness of strings (`if not s:` is taken for `None` and
  for `""`) — `strTruthy`;
* numeric prices — `ℚ` (the source holds them as Python numbers; no
  rounding behaviour of binary floating point is relied upon by the
  code under verification);
* exceptions — an `Except WallaPyError` result.
-/

/-- Python truthiness of an optional string: `None` and `""` are falsy. -/
def strTruthy : Option String → Bool
  | some s => s ≠ ""
  | none => false

/-- Python `a or b` on optional strings: `a` if truthy, else `b`. -/
def pyOr (a b : Option String) : Option String :=
  if strTruthy a then a else b

/-- Splits a character list into maximal whitespace-free words
(auxiliary for `clean_text`; `cur` holds the current word reversed). -/
def splitWsAux : List Char → List Char → List String
  | [], cur => if cur.isEmpty then [] else [String.mk cur.reverse]
  | c :: cs, cur =>
    if c.isWhitespace then
      if cur.isEmpty then splitWsAux cs []
      else String.mk cur.reverse :: splitWsAux cs []
    else splitWsAux cs (c :: cur)

/-- Modelled from the spec: `clean_text` from the repository's missing
`utils` module — "Normalizes the product name (trim, collapse
whitespace, case-fold comparisons later)": lower-case the string, split
on whitespace, drop empty fragments and re-join with single spaces. -/
def clean_text (s : String) : String :=
  " ".intercalate (splitWsAux (s.data.map Char.toLower) [])

/-- `startsWithChars needle hay`: `needle` is an initial segment of
`hay` (auxiliary for `containsChars`). -/
def startsWithChars : List Char → List Char → Bool
  | [], _ => true
  | _ :: _, [] => false
  | a :: as, b :: bs => a = b && startsWithChars as bs

/-- `containsChars needle hay`: `needle` occurs contiguously in `hay`. -/
def containsChars : List Char → List Char → Bool
  | needle, [] => needle.isEmpty
  | needle, b :: tl => startsWithChars needle (b :: tl) ||
      containsChars needle tl

/-- Modelled from the spec: the external fuzzy string-similarity
primitive (`fuzz.partial_ratio`), out of scope for the core — "given
two strings, return a 0–100 similarity score using partial/substring
matching semantics".  The model scores an exact substring occurrence
100 and anything else 0. -/
def fuzzModel (needle hay : String) : Nat :=
  if containsChars needle.data hay.data then 100 else 0

/-- Modelled from the spec: `make_link` from the repository's missing
`utils` module — "Derives the detail link … deterministically from
identity fields (pure string composition)". -/
def make_link (web_slug : String) : String :=
  "https://it.wallapop.com/item/" ++ web_slug

/-- Modelled from the spec: `contains_excluded_terms` from the
repository's missing `utils` module — "fuzzy-match each excluded term
against the concatenation of title and description; any match at or
above the exclusion threshold disqualifies the listing".  Parameterised
over the fuzzy primitive. -/
def contains_excluded_terms (ratio : String → String → Nat)
    (text : String) (terms : List String) (threshold : Nat) : Bool :=
  terms.any fun t => threshold ≤ ratio t text

/-- Modelled from the spec: `validate_prices` from the repository's
missing `utils` module — "For all criteria with `min_price > max_price`
(both present), search fails with a configuration error".  Returns
`true` when the bounds are acceptable. -/
def validate_prices (min_price max_price : Option ℚ) : Bool :=
  match min_price, max_price with
  | some mn, some mx => !(mx < mn)
  | _, _ => true

/-- `price` object of a raw API item: `{amount, currency}`. -/
structure PriceData where
  amount : Option ℚ := none
  currency : Option String := none
  deriving Repr, DecidableEq

/-- `location` object of a raw API item: `{city, region, country_code}`. -/
structure LocationData where
  city : Option String := none
  region : Option String := none
  country_code : Option String := none
  deriving Repr, DecidableEq

/-- `flags` object of a raw API item: `{reserved}`. -/
structure FlagsData where
  reserved : Option Bool := none
  deriving Repr, DecidableEq

/-- `urls` object of one image entry: `{big, medium, original, small}`. -/
structure ImageUrls where
  big : Option String := none
  medium : Option String := none
  original : Option String := none
  small : Option String := none
  deriving Repr, DecidableEq

/-- One entry of the `images` array of a raw API item. -/
structure ImageData where
  urls : Option ImageUrls := none
  deriving Repr, DecidableEq

/-- A raw listing as returned by the search API (`RawListing` of the
design document): a semi-structured record in which no field's presence
is guaranteed. -/
structure RawItem where
  id : Option String := none
  title : Option String := none
  description : Option String := none
  web_slug : Option String := none
  price : Option PriceData := none
  user_id : Option String := none
  location : Option LocationData := none
  flags : Option FlagsData := none
  created_at : Option Int := none
  images : Option (List ImageData) := none
  deriving Repr, DecidableEq

/-- Fuzzy-matching thresholds (`config.FUZZY_THRESHOLDS`). -/
structure Thresholds where
  title : Nat
  description : Nat
  excluded : Nat
  deriving Repr, DecidableEq

/-- The defaults from `config.py`: title 75, description 65, excluded 85. -/
def FUZZY_THRESHOLDS : Thresholds := ⟨75, 65, 85⟩

/-- `item.get("flags", {}).get("reserved", False)` (check.py line 111). -/
def reservedOf (item : RawItem) : Bool :=
  match item.flags with
  | some f => f.reserved.getD false
  | none => false

/-- `item.get("price", {}).get("amount")` (check.py lines 101–102). -/
def amountOf (item : RawItem) : Option ℚ :=
  (item.price.getD {}).amount

/-- `item.get("price", {}).get("currency")` (check.py line 103). -/
def currencyOf (item : RawItem) : Option String :=
  (item.price.getD {}).currency

/-- `location_data.get("city") or location_data.get("region") or
location_data.get("country_code")` (check.py lines 105–110). -/
def locationInfoOf (item : RawItem) : Option String :=
  let loc := item.location.getD {}
  pyOr loc.city (pyOr loc.region loc.country_code)

/-- The essential-data check of check.py lines 113–122:
`all([title, description, price is not None, web_slug, user_id,
location_info])` under Python truthiness. -/
def hasRequired (item : RawItem) : Bool :=
  strTruthy item.title && strTruthy item.description &&
    (amountOf item).isSome && strTruthy item.web_slug &&
    strTruthy item.user_id && strTruthy (locationInfoOf item)

/-- The price-range test of check.py lines 144–148: in range unless the
price is strictly below a present minimum or strictly above a present
maximum. -/
def price_in_range (p : ℚ) (min_price max_price : Option ℚ) : Bool :=
  (match min_price with | some mn => !(p < mn) | none => true) &&
  (match max_price with | some mx => !(mx < p) | none => true)

/-- Timestamp handling of check.py lines 128–142: `if timestamp_ms:` —
a missing or Python-falsy (zero) `created_at` leaves the creation date
absent; otherwise the millisecond epoch is kept as the UTC instant. -/
def dateOf (item : RawItem) : Option Int :=
  match item.created_at with
  | some ts => if ts ≠ 0 then some ts else none
  | none => none

/-- Image-URL choice of check.py lines 207–221: first truthy variant in
priority order big, medium, original, small (Python `or` chain, so the
last value is returned even when falsy). -/
def imgUrl (img : ImageData) : Option String :=
  let u := img.urls.getD {}
  pyOr u.big (pyOr u.medium (pyOr u.original u.small))

/-- The per-keyword scoring loop of check.py lines 174–189, as a left
fold over the keyword list.  State: `(keyword_match_found,
matched_in_description, highest_match_score)`.  A title score strictly
above the title threshold, or a description score strictly above the
description threshold, qualifies; the description branch additionally
sets the description flag. -/
def kwScan (ratio : String → String → Nat) (titleThr descThr : Nat)
    (titleClean descClean : String) (kws : List String) :
    Bool × Bool × Nat :=
  kws.foldl
    (fun st kw =>
      let title_score := ratio kw titleClean
      let desc_score := ratio kw descClean
      let st1 : Bool × Bool × Nat :=
        if titleThr < title_score then (true, st.2.1, max st.2.2 title_score)
        else st
      if descThr < desc_score then (true, true, max st1.2.2 desc_score)
      else st1)
    (false, false, 0)

/-- The record built by `_process_wallapop_item` on success
(check.py lines 235–253). -/
structure ProcessedItem where
  search_term : String
  title : String
  price : ℚ
  currency : Option String
  location : String
  description : String
  link : String
  id : String
  creation_date_utc : Option Int
  creation_date_local : Option Int
  seller_platform : String
  seller_link : Option String
  is_reserved : Bool
  main_image : Option String
  all_images : List String
  matched_in_description : Bool
  match_score : Nat
  deriving Repr, DecidableEq

/-- `WallaPyClient._process_wallapop_item` (check.py lines 78–260):
normalise and filter one raw listing; `none` is the silent skip.
Parameterised over the external fuzzy primitive `ratio` and the
client's thresholds. -/
def process_wallapop_item (ratio : String → String → Nat)
    (th : Thresholds) (item : RawItem) (search_product_name : String)
    (search_keywords : List String) (min_price max_price : Option ℚ)
    (excluded_keywords : List String) : Option ProcessedItem :=
  if !strTruthy item.id then none
  else if !hasRequired item then none
  else
    let product_title := item.title.getD ""
    let product_description := item.description.getD ""
    let product_price := (amountOf item).getD 0
    let in_range := price_in_range product_price min_price max_price
    if reservedOf item then none
    else if contains_excluded_terms ratio
        (product_title ++ " " ++ product_description)
        excluded_keywords th.excluded then none
    else
      let title_cleaned := clean_text product_title
      let description_cleaned := clean_text product_description
      let st :=
        if search_keywords.isEmpty then (true, false, 0)
        else kwScan ratio th.title th.description
          title_cleaned description_cleaned search_keywords
      if !st.1 then none
      else if !in_range then none
      else
        let images_data := item.images.getD []
        let main_image_url :=
          match images_data with
          | [] => none
          | img :: _ => imgUrl img
        let all_image_urls :=
          images_data.filterMap fun img =>
            let u := imgUrl img
            if strTruthy u then u else none
        some
          { search_term := search_product_name
            title := product_title
            price := product_price
            currency := currencyOf item
            location := (locationInfoOf item).getD ""
            description := product_description
            link := make_link (item.web_slug.getD "")
            id := item.id.getD ""
            creation_date_utc := dateOf item
            creation_date_local := dateOf item
            seller_platform := "WALLAPOP"
            seller_link :=
              some ("https://it.wallapop.com/user/" ++ item.user_id.getD "")
            is_reserved := reservedOf item
            main_image := main_image_url
            all_images := all_image_urls
            matched_in_description := st.2.1
            match_score := st.2.2 }

/-- The error taxonomy of the design document (§7), standing for the
exception classes of the repository's missing `exceptions` module:
configuration, request, parsing and unclassified errors. -/
inductive WallaPyError
  | config
  | request
  | parsing
  | generic
  deriving Repr, DecidableEq

/-- The `items` value found at `data.section.payload.items` of a page
response: either an actual JSON list of raw listings, or a value of a
different type (fetch_api.py lines 143–147 replaces the latter with the
empty list); a missing field is `list []` because every lookup on the
path uses a `{}` / `[]` default. -/
inductive ItemsField
  | list (items : List RawItem)
  | notAList
  deriving Repr

/-- The coercion applied by fetch_api.py lines 141–147. -/
def itemsOf : ItemsField → List RawItem
  | .list items => items
  | .notAList => []

/-- The body of one HTTP response: undecodable JSON, or a decoded
document holding the items field and the `meta.next_page` cursor. -/
inductive BodyShape
  | invalid
  | json (items : ItemsField) (next_page : Option String)

/-- One answer of the external transport (`safe_request`): `down` when
the transport gave up after its internal retries (Python `None`),
otherwise a response with a status code and a body. -/
inductive ApiResponse
  | down
  | resp (status_code : Nat) (body : BodyShape)

/-- The pagination loop of `fetch_wallapop_items` (fetch_api.py lines
109–227).  The sequential transport (URL construction, cursor rewriting
and the GET itself) is abstracted into `api : Nat → ApiResponse`
keyed by the page counter, since the loop requests pages strictly one
after the other.  Returns the collected raw listings together with the
number of page fetches performed, or the error that aborted the search.

One iteration mirrors the source: transport failure or a non-200
status raises a request error; an undecodable body raises a parsing
error; an empty (or wrong-typed) items list ends pagination; otherwise
the page is appended up to the remaining budget, and the loop continues
only when the budget is still unmet and a truthy `next_page` cursor is
present. -/
def fetch_loop (api : Nat → ApiResponse) (max_total_items : Nat) :
    Nat → List RawItem → Except WallaPyError (List RawItem × Nat)
  | page, acc =>
    if h : acc.length < max_total_items then
      match api page with
      | .down => .error .request
      | .resp status_code body =>
        if status_code ≠ 200 then .error .request
        else
          match body with
          | .invalid => .error .parsing
          | .json itemsField next_page =>
            let items_on_page := itemsOf itemsField
            if h2 : items_on_page.isEmpty then .ok (acc, page + 1)
            else
              let acc2 := acc ++ items_on_page.take (max_total_items - acc.length)
              if max_total_items ≤ acc2.length then .ok (acc2, page + 1)
              else if strTruthy next_page then
                fetch_loop api max_total_items (page + 1) acc2
              else .ok (acc2, page + 1)
    else .ok (acc, page)
termination_by page acc => max_total_items - acc.length
decreasing_by
  show max_total_items -
      (acc ++ items_on_page.take (max_total_items - acc.length)).length <
    max_total_items - acc.length
  simp only [List.length_append, List.length_take]
  have hne : items_on_page ≠ [] := by simpa using h2
  have hpos : 0 < items_on_page.length := List.length_pos.mpr hne
  omega

/-- `fetch_wallapop_items` (fetch_api.py lines 78–236): run the
pagination loop from page 0 with an empty accumulator, then apply the
final defensive truncation of lines 229–233. -/
def fetch_wallapop_items (api : Nat → ApiResponse) (_initial_url : String)
    (max_total_items : Nat) : Except WallaPyError (List RawItem) :=
  match fetch_loop api max_total_items 0 [] with
  | .error e => .error e
  | .ok (all_items_data, _) =>
    .ok (if max_total_items < all_items_data.length then
          all_items_data.take max_total_items
         else all_items_data)

/-- `config.BASE_URL_WALLAPOP`. -/
def BASE_URL_WALLAPOP : String := "https://api.wallapop.com/api/v3/search"

/-- Python `int(...)` on a rational: truncation toward zero
(fetch_api.py lines 58–61 coerce the price bounds with `int`). -/
def truncInt (q : ℚ) : Int := if q < 0 then ⌈q⌉ else ⌊q⌋

/-- `setup_url` (fetch_api.py lines 20–75): build the initial search
URL — cleaned, percent-encoded product name; integer price bounds when
present; `order_by` validated against the fixed list with a silent
fallback to `newest`; the time filter appended verbatim when truthy. -/
def setup_url (product_name : String) (min_price max_price : Option ℚ)
    (order_by : String) (time_filter : Option String) : String :=
  let query := (clean_text product_name).replace " " "%20"
  let u := BASE_URL_WALLAPOP ++ "?source=search_box&keywords=" ++ query
  let u := match min_price with
    | some m => u ++ "&min_sale_price=" ++ toString (truncInt m)
    | none => u
  let u := match max_price with
    | some m => u ++ "&max_sale_price=" ++ toString (truncInt m)
    | none => u
  let u :=
    if order_by = "newest" ∨ order_by = "price_low_to_high" ∨
        order_by = "price_high_to_low" then
      u ++ "&order_by=" ++ order_by
    else u ++ "&order_by=newest"
  match time_filter with
  | some tf => if tf ≠ "" then u ++ "&time_filter=" ++ tf else u
  | none => u

/-- The per-listing loop of `check_wallapop` (check.py lines 366–391):
process the raw listings in fetch order, skipping a listing whose id is
missing or already in `processed_ids`; an id is added to
`processed_ids` only when its listing is accepted. -/
def check_wallapop_loop (ratio : String → String → Nat) (th : Thresholds)
    (product_name : String) (keywords excluded : List String)
    (min_price max_price : Option ℚ) :
    List RawItem → List String → List ProcessedItem
  | [], _ => []
  | item :: rest, processed_ids =>
    if !strTruthy item.id || processed_ids.contains (item.id.getD "") then
      check_wallapop_loop ratio th product_name keywords excluded
        min_price max_price rest processed_ids
    else
      match process_wallapop_item ratio th item product_name keywords
          min_price max_price excluded with
      | some p =>
        p :: check_wallapop_loop ratio th product_name keywords excluded
          min_price max_price rest (item.id.getD "" :: processed_ids)
      | none =>
        check_wallapop_loop ratio th product_name keywords excluded
          min_price max_price rest processed_ids

/-- `WallaPyClient.check_wallapop` (check.py lines 262–395): validate
the price bounds, clean the keyword lists, reject an empty product
name, build the initial URL, fetch the raw listings and run the
per-listing processing loop.  Parameterised over the fuzzy primitive,
the client thresholds and the abstract transport. -/
def check_wallapop (ratio : String → String → Nat) (th : Thresholds)
    (api : Nat → ApiResponse) (product_name : String)
    (keywords excluded_keywords : Option (List String))
    (min_price max_price : Option ℚ) (max_total_items : Nat)
    (order_by : String) (time_filter : Option String) :
    Except WallaPyError (List ProcessedItem) :=
  if !validate_prices min_price max_price then .error .config
  else
    let kws := keywords.getD []
    let excl := excluded_keywords.getD []
    let keywords_cleaned := (kws.map clean_text).filter (· ≠ "")
    let excluded_cleaned := (excl.map clean_text).filter (· ≠ "")
    if product_name = "" then .error .config
    else
      let initial_url :=
        setup_url product_name min_price max_price order_by time_filter
      match fetch_wallapop_items api initial_url max_total_items with
      | .error e => .error e
      | .ok raw_items_data =>
        if raw_items_data.isEmpty then .ok []
        else
          .ok (check_wallapop_loop ratio th product_name keywords_cleaned
            excluded_cleaned min_price max_price raw_items_data [])

/-! ## Helper lemmas -/

/-- Inversion of a successful `process_wallapop_item`: the reservation
flag, identity, description-match flag and score of the returned record
in terms of the raw item and the keyword scan. -/
theorem process_item_inv (ratio : String → String → Nat) (th : Thresholds)
    (item : RawItem) (pname : String) (kws : List String)
    (mn mx : Option ℚ) (excl : List String) (r : ProcessedItem)
    (h : process_wallapop_item ratio th item pname kws mn mx excl = some r) :
    r.is_reserved = reservedOf item ∧ r.id = item.id.getD "" ∧
    r.matched_in_description =
      (if kws.isEmpty then (true, false, 0)
       else kwScan ratio th.title th.description
         (clean_text (item.title.getD "")) (clean_text (item.description.getD ""))
         kws).2.1 ∧
    r.match_score =
      (if kws.isEmpty then (true, false, 0)
       else kwScan ratio th.title th.description
         (clean_text (item.title.getD "")) (clean_text (item.description.getD ""))
         kws).2.2 := by
  simp only [process_wallapop_item] at h
  repeat' split at h
  all_goals try exact Option.noConfusion h
  all_goals (rw [Option.some.injEq] at h; subst h; simp_all)

/-- The description flag computed by the keyword scan is set exactly
when some keyword's description score strictly exceeds the description
threshold (regardless of any title score). -/
theorem kwScan_flag (ratio : String → String → Nat) (tt td : Nat) (t d : String)
    (kws : List String) :
    (kwScan ratio tt td t d kws).2.1 = kws.any fun kw => decide (td < ratio kw d) := by
  unfold kwScan
  suffices H : ∀ st : Bool × Bool × Nat,
      ((kws.foldl (fun st kw =>
        let title_score := ratio kw t
        let desc_score := ratio kw d
        let st1 : Bool × Bool × Nat :=
          if tt < title_score then (true, st.2.1, max st.2.2 title_score)
          else st
        if td < desc_score then (true, true, max st1.2.2 desc_score)
        else st1) st).2.1) =
      (st.2.1 || kws.any fun kw => decide (td < ratio kw d)) by
    simpa using H (false, false, 0)
  induction kws with
  | nil => intro st; simp
  | cons kw rest ih =>
    intro st
    simp only [List.foldl_cons, List.any_cons]
    rw [ih]
    by_cases h1 : tt < ratio kw t <;> by_cases h2 : td < ratio kw d <;>
      simp [h1, h2, Bool.or_assoc, Bool.or_comm, Bool.or_left_comm]

/-- The dedup invariant of the per-listing loop: starting from any set
of already-accepted ids, the produced records carry pairwise-distinct
identities, none of which is in the starting set. -/
theorem check_loop_nodup_aux (ratio : String → String → Nat) (th : Thresholds)
    (pn : String) (kws excl : List String) (mn mx : Option ℚ) :
    ∀ (items : List RawItem) (ids : List String),
      (((check_wallapop_loop ratio th pn kws excl mn mx items ids).map
        (fun r => r.id)).Nodup) ∧
      ∀ r ∈ check_wallapop_loop ratio th pn kws excl mn mx items ids,
        r.id ∉ ids := by
  intro items
  induction items with
  | nil => intro ids; simp [check_wallapop_loop]
  | cons item rest ih =>
    intro ids
    rw [check_wallapop_loop]
    split
    · exact ih ids
    · rename_i hguard
      rw [Bool.or_eq_true, not_or] at hguard
      obtain ⟨hid, hmem⟩ := hguard
      have hnotin : item.id.getD "" ∉ ids := by
        intro hin
        exact hmem (List.elem_eq_true_of_mem hin)
      split
      · rename_i p hp
        have hpid : p.id = item.id.getD "" :=
          (process_item_inv ratio th item pn kws mn mx excl p hp).2.1
        have ihrec := ih (item.id.getD "" :: ids)
        constructor
        · simp only [List.map_cons, List.nodup_cons]
          refine ⟨?_, ihrec.1⟩
          intro hmem2
          rw [List.mem_map] at hmem2
          obtain ⟨q, hq, hqid⟩ := hmem2
          have := ihrec.2 q hq
          rw [hqid, hpid] at this
          exact this (List.mem_cons_self _ _)
        · intro r hr
          rcases List.mem_cons.mp hr with hre | hre
          · subst hre; rw [hpid]; exact hnotin
          · have := ihrec.2 r hre
            exact fun hin => this (List.mem_cons_of_mem _ hin)
      · exact ih ids

/-- Budget invariant of the pagination loop: from any accumulator not
already past the budget, a successful run returns at most
`max_total_items` listings.  (`m` bounds the remaining budget for the
induction.) -/
theorem fetch_loop_length_le (api : Nat → ApiResponse) (b : Nat) :
    ∀ (m page : Nat) (acc : List RawItem), b - acc.length ≤ m → acc.length ≤ b →
      ∀ l n, fetch_loop api b page acc = .ok (l, n) → l.length ≤ b := by
  intro m
  induction m with
  | zero =>
    intro page acc hm hle l n hrun
    rw [fetch_loop.eq_1] at hrun
    rw [dif_neg (by omega)] at hrun
    rw [Except.ok.injEq, Prod.mk.injEq] at hrun
    obtain ⟨hl, -⟩ := hrun
    subst hl; exact hle
  | succ m ih =>
    intro page acc hm hle l n hrun
    rw [fetch_loop.eq_1] at hrun
    by_cases hlt : acc.length < b
    · rw [dif_pos hlt] at hrun
      cases hapi : api page with
      | down => rw [hapi] at hrun; exact absurd hrun (by simp)
      | resp code body =>
        rw [hapi] at hrun
        simp only [] at hrun
        by_cases hcode : code ≠ 200
        · rw [if_pos hcode] at hrun; exact absurd hrun (by simp)
        · rw [if_neg hcode] at hrun
          cases body with
          | invalid => exact absurd hrun (by simp)
          | json itsF np =>
            simp only [] at hrun
            by_cases hemp : (itemsOf itsF).isEmpty
            · rw [dif_pos hemp] at hrun
              rw [Except.ok.injEq, Prod.mk.injEq] at hrun
              obtain ⟨hl, -⟩ := hrun
              subst hl; exact hle
            · rw [dif_neg hemp] at hrun
              have hlen2 : (acc ++ (itemsOf itsF).take (b - acc.length)).length ≤ b := by
                simp only [List.length_append, List.length_take]
                omega
              have hgt : acc.length <
                  (acc ++ (itemsOf itsF).take (b - acc.length)).length := by
                simp only [List.length_append, List.length_take]
                have : (itemsOf itsF) ≠ [] := by simpa using hemp
                have := List.length_pos.mpr this
                omega
              by_cases hfull : b ≤ (acc ++ (itemsOf itsF).take (b - acc.length)).length
              · rw [if_pos hfull] at hrun
                rw [Except.ok.injEq, Prod.mk.injEq] at hrun
                obtain ⟨hl, -⟩ := hrun
                subst hl; exact hlen2
              · rw [if_neg hfull] at hrun
                by_cases hcur : strTruthy np = true
                · rw [if_pos hcur] at hrun
                  exact ih (page + 1) _ (by omega) hlen2 l n hrun
                · rw [if_neg hcur] at hrun
                  rw [Except.ok.injEq, Prod.mk.injEq] at hrun
                  obtain ⟨hl, -⟩ := hrun
                  subst hl; exact hlen2
    · rw [dif_neg hlt] at hrun
      rw [Except.ok.injEq, Prod.mk.injEq] at hrun
      obtain ⟨hl, -⟩ := hrun
      subst hl; exact hle

/-- The fetch counter returned by the pagination loop never precedes
the starting page index. -/
theorem fetch_loop_page_le (api : Nat → ApiResponse) (b : Nat) :
    ∀ (m page : Nat) (acc : List RawItem), b - acc.length ≤ m →
      ∀ l n, fetch_loop api b page acc = .ok (l, n) → page ≤ n := by
  intro m
  induction m with
  | zero =>
    intro page acc hm l n hrun
    rw [fetch_loop.eq_1] at hrun
    by_cases hlt : acc.length < b
    · omega
    · rw [dif_neg hlt] at hrun
      rw [Except.ok.injEq, Prod.mk.injEq] at hrun
      omega
  | succ m ih =>
    intro page acc hm l n hrun
    rw [fetch_loop.eq_1] at hrun
    by_cases hlt : acc.length < b
    · rw [dif_pos hlt] at hrun
      cases hapi : api page with
      | down => rw [hapi] at hrun; exact absurd hrun (by simp)
      | resp code body =>
        rw [hapi] at hrun
        simp only [] at hrun
        by_cases hcode : code ≠ 200
        · rw [if_pos hcode] at hrun; exact absurd hrun (by simp)
        · rw [if_neg hcode] at hrun
          cases body with
          | invalid => exact absurd hrun (by simp)
          | json itsF np =>
            simp only [] at hrun
            by_cases hemp : (itemsOf itsF).isEmpty
            · rw [dif_pos hemp] at hrun
              rw [Except.ok.injEq, Prod.mk.injEq] at hrun
              omega
            · rw [dif_neg hemp] at hrun
              have hgt : acc.length <
                  (acc ++ (itemsOf itsF).take (b - acc.length)).length := by
                simp only [List.length_append, List.length_take]
                have : (itemsOf itsF) ≠ [] := by simpa using hemp
                have := List.length_pos.mpr this
                omega
              by_cases hfull : b ≤ (acc ++ (itemsOf itsF).take (b - acc.length)).length
              · rw [if_pos hfull] at hrun
                rw [Except.ok.injEq, Prod.mk.injEq] at hrun
                omega
              · rw [if_neg hfull] at hrun
                by_cases hcur : strTruthy np = true
                · rw [if_pos hcur] at hrun
                  have := ih (page + 1) _ (by omega) l n hrun
                  omega
                · rw [if_neg hcur] at hrun
                  rw [Except.ok.injEq, Prod.mk.injEq] at hrun
                  omega
    · rw [dif_neg hlt] at hrun
      rw [Except.ok.injEq, Prod.mk.injEq] at hrun
      omega

/-- Fetch-count bound for uniform well-formed pages: when every page
carries exactly `ps` listings and a non-empty cursor, a run that starts
below the budget performs at most `⌈(b - |acc|) / ps⌉` further fetches. -/
theorem fetch_loop_count_bound (api : Nat → ApiResponse) (b ps : Nat)
    (hps : 0 < ps)
    (hresp : ∀ i, ∃ its c, api i = .resp 200 (.json (.list its) (some c)) ∧
      its.length = ps ∧ c ≠ "") :
    ∀ (m page : Nat) (acc : List RawItem), b - acc.length ≤ m →
      acc.length < b →
      ∀ l n, fetch_loop api b page acc = .ok (l, n) →
        n - page ≤ (b - acc.length + ps - 1) / ps := by
  intro m
  induction m with
  | zero => intro page acc hm hlt; omega
  | succ m ih =>
    intro page acc hm hlt l n hrun
    obtain ⟨its, c, hapi, hlen, hc⟩ := hresp page
    rw [fetch_loop.eq_1, dif_pos hlt, hapi] at hrun
    simp only [itemsOf] at hrun
    rw [if_neg (by omega)] at hrun
    have hne : its ≠ [] := by intro h; rw [h] at hlen; simp at hlen; omega
    rw [dif_neg (by simpa using hne)] at hrun
    have hlen2 : (acc ++ its.take (b - acc.length)).length =
        acc.length + min (b - acc.length) ps := by
      simp only [List.length_append, List.length_take, hlen]
    by_cases hfull : b ≤ (acc ++ its.take (b - acc.length)).length
    · rw [if_pos hfull] at hrun
      rw [Except.ok.injEq, Prod.mk.injEq] at hrun
      obtain ⟨-, hn⟩ := hrun
      have h1 : 1 ≤ (b - acc.length + ps - 1) / ps := by
        rw [Nat.one_le_div_iff hps]
        omega
      omega
    · rw [if_neg hfull] at hrun
      have hcur : strTruthy (some c) = true := by simpa [strTruthy] using hc
      rw [if_pos hcur] at hrun
      have hpage := fetch_loop_page_le api b
        (b - (acc ++ its.take (b - acc.length)).length)
        (page + 1) _ (le_refl _) l n hrun
      have hrec := ih (page + 1) _ (by omega) (by omega) l n hrun
      have hacc2 : (acc ++ its.take (b - acc.length)).length = acc.length + ps := by
        rw [hlen2]; omega
      have hps_lt : ps < b - acc.length := by omega
      have hB : (b - acc.length + ps - 1) / ps =
          (b - (acc ++ its.take (b - acc.length)).length + ps - 1) / ps + 1 := by
        rw [hacc2]
        have h6 : b - (acc.length + ps) + ps - 1 = b - acc.length - 1 := by omega
        have h7 : b - acc.length + ps - 1 = b - acc.length - 1 + ps := by omega
        rw [h6, h7, Nat.add_div_right _ hps]
      omega

/-! ## Concrete inputs used by witnesses and counterexamples -/

/-- An API whose every page carries two listings and a cursor. -/
def c1api : Nat → ApiResponse := fun _ =>
  .resp 200 (.json (.list [{ id := some "x" }, { id := some "y" }]) (some "cur"))

/-- A fully valid but reserved listing. -/
def c4item : RawItem :=
  { id := some "R1", title := some "nice chair", description := some "red chair",
    web_slug := some "chair",
    price := some { amount := some 50, currency := some "EUR" },
    user_id := some "u3", location := some { city := some "Milan" },
    flags := some { reserved := some true } }

/-- The spec's §8 example listing, exactly as written there (note: it
has no `web_slug` field). -/
def c5item : RawItem :=
  { id := some "A1", title := some "PS5 console bundle",
    description := some "Like new",
    price := some { amount := some 150, currency := some "EUR" },
    user_id := some "u1", location := some { city := some "Rome" },
    flags := some { reserved := some false },
    created_at := some 1700000000000 }

/-- The spec's example listing with a `web_slug` added. -/
def c5slugged : RawItem := { c5item with web_slug := some "ps5-console-bundle" }

/-- A valid, unreserved, in-range listing (no `flags` object). -/
def c6item : RawItem :=
  { id := some "N1", title := some "old lamp", description := some "works fine",
    web_slug := some "old-lamp",
    price := some { amount := some 20, currency := some "EUR" },
    user_id := some "u9", location := some { city := some "Turin" } }

/-- The record produced for `c6item` with no keywords. -/
def c6result : ProcessedItem :=
  { search_term := "lamp", title := "old lamp", price := 20,
    currency := some "EUR", location := "Turin", description := "works fine",
    link := "https://it.wallapop.com/item/old-lamp", id := "N1",
    creation_date_utc := none, creation_date_local := none,
    seller_platform := "WALLAPOP",
    seller_link := some "https://it.wallapop.com/user/u9",
    is_reserved := false, main_image := none, all_images := [],
    matched_in_description := false, match_score := 0 }

/-- An API whose page-0 `items` value is not a list. -/
def c7aApi : Nat → ApiResponse := fun _ => .resp 200 (.json .notAList (some "z"))

/-- An API whose page-0 body is not decodable JSON. -/
def c7bApi : Nat → ApiResponse := fun _ => .resp 200 .invalid

/-- A listing whose title scores above the title threshold and whose
description scores above the description threshold but below the title
score, under `c8ratio`. -/
def c8item : RawItem :=
  { id := some "B1", title := some "alpha", description := some "beta",
    web_slug := some "b", price := some { amount := some 10 },
    user_id := some "u", location := some { city := some "X" } }

/-- A fuzzy scorer giving the (cleaned) title 90 and the (cleaned)
description 70 for every keyword. -/
def c8ratio : String → String → Nat := fun _ s =>
  if s = "alpha" then 90 else if s = "beta" then 70 else 0

/-- The record produced for `c8item` under `c8ratio` with keywords
`["kw"]` and the default thresholds. -/
def c8result : ProcessedItem :=
  { search_term := "p", title := "alpha", price := 10, currency := none,
    location := "X", description := "beta",
    link := "https://it.wallapop.com/item/b", id := "B1",
    creation_date_utc := none, creation_date_local := none,
    seller_platform := "WALLAPOP",
    seller_link := some "https://it.wallapop.com/user/u",
    is_reserved := false, main_image := none, all_images := [],
    matched_in_description := true, match_score := 90 }

/-- An API whose every page carries exactly two listings and a cursor. -/
def c9api : Nat → ApiResponse := fun _ =>
  .resp 200 (.json (.list [{ id := some "a" }, { id := some "b" }]) (some "k"))

/-- A valid listing with no `flags` object at all. -/
def c10item : RawItem :=
  { id := some "M1", title := some "mug", description := some "blue mug",
    web_slug := some "mug", price := some { amount := some 4 },
    user_id := some "u2", location := some { region := some "Lazio" } }

/-- The record produced for `c10item` with no keywords. -/
def c10result : ProcessedItem :=
  { search_term := "mug", title := "mug", price := 4, currency := none,
    location := "Lazio", description := "blue mug",
    link := "https://it.wallapop.com/item/mug", id := "M1",
    creation_date_utc := none, creation_date_local := none,
    seller_platform := "WALLAPOP",
    seller_link := some "https://it.wallapop.com/user/u2",
    is_reserved := false, main_image := none, all_images := [],
    matched_in_description := false, match_score := 0 }

/-! ## Claims -/

/-- C1: for every initial URL, headers (abstracted into the transport),
item budget and sequence of API page responses, the list returned by
`fetch_wallapop_items` contains at most `max_total_items` raw listings —
the final page is truncated to the remaining budget and pagination
stops once the budget is reached. -/
theorem fetch_never_exceeds_budget (api : Nat → ApiResponse) (url : String)
    (b : Nat) (l : List RawItem)
    (h : fetch_wallapop_items api url b = .ok l) : l.length ≤ b := by
  unfold fetch_wallapop_items at h
  cases hrun : fetch_loop api b 0 [] with
  | error e => rw [hrun] at h; exact absurd h (by simp)
  | ok p =>
    obtain ⟨l0, n⟩ := p
    rw [hrun] at h
    simp only [] at h
    have hlen := fetch_loop_length_le api b b 0 [] (by simp) (by simp) l0 n hrun
    rw [Except.ok.injEq] at h
    subst h
    by_cases hgt : b < l0.length
    · rw [if_pos hgt]
      simp only [List.length_take]
      omega
    · rw [if_neg hgt]
      exact hlen

/-- Witness for C1: three two-listing pages against a budget of 3 yield
exactly 3 listings (the second page is truncated after one item). -/
theorem fetch_never_exceeds_budget_witness :
    fetch_wallapop_items c1api "" 3 =
      .ok [{ id := some "x" }, { id := some "y" }, { id := some "x" }] ∧
    ([({ id := some "x" } : RawItem), { id := some "y" },
      { id := some "x" }]).length ≤ 3 := by
  have h : fetch_wallapop_items c1api "" 3 =
      .ok [{ id := some "x" }, { id := some "y" }, { id := some "x" }] := by
    simp [fetch_wallapop_items, fetch_loop, c1api, itemsOf, strTruthy]
  exact ⟨h, fetch_never_exceeds_budget c1api "" 3 _ h⟩

/-- C2: a search whose price bounds are inverted (both present,
minimum above maximum), or whose product name is empty, fails with a
configuration error — uniformly in the transport, hence before any page
fetch can influence the outcome. -/
theorem config_error_fails_fast (ratio : String → String → Nat)
    (th : Thresholds) (api : Nat → ApiResponse) (pname : String)
    (kws excl : Option (List String)) (mn mx : Option ℚ) (b : Nat)
    (ob : String) (tf : Option String)
    (h : (∃ a c, mn = some a ∧ mx = some c ∧ c < a) ∨ pname = "") :
    check_wallapop ratio th api pname kws excl mn mx b ob tf =
      .error .config := by
  unfold check_wallapop
  rcases h with ⟨a, c, ha, hc, hlt⟩ | hname
  · subst ha; subst hc
    have hv : validate_prices (some a) (some c) = false := by
      simp [validate_prices, hlt]
    rw [hv]
    simp
  · by_cases hv : validate_prices mn mx
    · simp [hv, hname]
    · have hv2 : validate_prices mn mx = false := by simpa using hv
      simp [hv2]

/-- Witness for C2: min 200 and max 100 with a dead transport still
produce the configuration error, not a request error. -/
theorem config_error_fails_fast_witness :
    ((100 : ℚ) < 200) ∧
    check_wallapop fuzzModel FUZZY_THRESHOLDS (fun _ => ApiResponse.down)
      "ps5" none none (some 200) (some 100) 10 "newest" none =
      .error .config :=
  ⟨by norm_num,
   config_error_fails_fast fuzzModel FUZZY_THRESHOLDS
     (fun _ => ApiResponse.down) "ps5" none none (some 200) (some 100) 10
     "newest" none (Or.inl ⟨200, 100, rfl, rfl, by norm_num⟩)⟩

/-- C3: over any sequence of raw listings, the per-listing loop of
`check_wallapop` drops a listing whose identity was already accepted
(ids are recorded only on acceptance), so the result set never contains
two entries with the same identity. -/
theorem result_identities_nodup (ratio : String → String → Nat)
    (th : Thresholds) (pn : String) (kws excl : List String)
    (mn mx : Option ℚ) (items : List RawItem) :
    ((check_wallapop_loop ratio th pn kws excl mn mx items []).map
      (fun r => r.id)).Nodup :=
  (check_loop_nodup_aux ratio th pn kws excl mn mx items []).1

/-- C4: a raw listing whose `flags.reserved` field is `true` is always
rejected by `_process_wallapop_item`, whatever the keywords, prices,
thresholds and fuzzy scorer. -/
theorem reserved_listing_always_rejected (ratio : String → String → Nat)
    (th : Thresholds) (item : RawItem) (pname : String)
    (kws : List String) (mn mx : Option ℚ) (excl : List String)
    (fl : FlagsData) (hf : item.flags = some fl)
    (hr : fl.reserved = some true) :
    process_wallapop_item ratio th item pname kws mn mx excl = none := by
  have hres : reservedOf item = true := by simp [reservedOf, hf, hr]
  simp [process_wallapop_item, hres]

/-- Witness for C4: a reserved listing with matching keyword and
in-range price is still rejected. -/
theorem reserved_listing_always_rejected_witness :
    c4item.flags = some { reserved := some true } ∧
    process_wallapop_item fuzzModel FUZZY_THRESHOLDS c4item "chair"
      ["chair"] (some 10) (some 100) [] = none :=
  ⟨rfl,
   reserved_listing_always_rejected fuzzModel FUZZY_THRESHOLDS c4item
     "chair" ["chair"] (some 10) (some 100) [] { reserved := some true }
     rfl rfl⟩

/-- C5 counterexample: the spec's §8 example raw listing (which carries
no `web_slug`) is rejected by `_process_wallapop_item` — check.py line
113 requires a truthy `web_slug` — so it is not normalized and accepted
as the claim states. -/
theorem spec_example_listing_rejected :
    process_wallapop_item fuzzModel FUZZY_THRESHOLDS c5item "ps5"
      ["console", "ps5"] (some 100) (some 200) [] = none := by decide

/-- C5 amended: the same listing with a `web_slug` added is normalized
and passes filtering with score 100 from a title match (the description
flag stays false). -/
theorem spec_example_with_slug_accepted :
    (process_wallapop_item fuzzModel FUZZY_THRESHOLDS c5slugged "ps5"
      ["console", "ps5"] (some 100) (some 200) []).map
      (fun r => (r.match_score, r.matched_in_description)) =
      some (100, false) := by decide

/-- C6: with an empty keyword list, every listing with the required
fields, not reserved, free of excluded terms and inside the optional
price bounds is accepted, and the accepted record reports a match
score of 0. -/
theorem empty_keywords_accept_score_zero (ratio : String → String → Nat)
    (th : Thresholds) (item : RawItem) (pname : String)
    (mn mx : Option ℚ) (excl : List String) (r : ProcessedItem)
    (hid : strTruthy item.id = true)
    (hreq : hasRequired item = true)
    (hres : reservedOf item = false)
    (hexcl : contains_excluded_terms ratio
      (item.title.getD "" ++ " " ++ item.description.getD "") excl
      th.excluded = false)
    (hprice : price_in_range ((amountOf item).getD 0) mn mx = true) :
    process_wallapop_item ratio th item pname [] mn mx excl ≠ none ∧
    (process_wallapop_item ratio th item pname [] mn mx excl = some r →
      r.match_score = 0) := by
  constructor
  · simp [process_wallapop_item, hid, hreq, hres, hexcl, hprice]
  · intro hr
    have h4 := (process_item_inv ratio th item pname [] mn mx excl r hr).2.2.2
    simpa using h4

/-- Witness for C6: a valid listing with no keywords is accepted with
score 0. -/
theorem empty_keywords_accept_score_zero_witness :
    process_wallapop_item fuzzModel FUZZY_THRESHOLDS c6item "lamp" []
      (some 10) (some 30) [] ≠ none ∧
    (process_wallapop_item fuzzModel FUZZY_THRESHOLDS c6item "lamp" []
      (some 10) (some 30) [] = some c6result →
      c6result.match_score = 0) :=
  empty_keywords_accept_score_zero fuzzModel FUZZY_THRESHOLDS c6item
    "lamp" (some 10) (some 30) [] c6result (by decide) (by decide)
    (by decide) (by decide) (by decide)

/-- C7: a page whose `items` value is missing or not a list counts as
zero listings and ends pagination normally with an empty result, while
an undecodable body aborts the search with a parsing error — the two
cases are never conflated. -/
theorem malformed_items_vs_undecodable_body (api api2 : Nat → ApiResponse)
    (url url2 : String) (b b2 : Nat) (cur : Option String)
    (h1 : api 0 = .resp 200 (.json .notAList cur))
    (h2 : api2 0 = .resp 200 .invalid) (hb2 : 1 ≤ b2) :
    fetch_wallapop_items api url b = .ok [] ∧
    fetch_wallapop_items api2 url2 b2 = .error .parsing := by
  constructor
  · unfold fetch_wallapop_items
    rcases Nat.eq_zero_or_pos b with hb | hb
    · subst hb
      rw [fetch_loop.eq_1, dif_neg (by simp)]
      simp
    · rw [fetch_loop.eq_1, dif_pos (by simpa using hb), h1]
      simp [itemsOf]
  · unfold fetch_wallapop_items
    rw [fetch_loop.eq_1, dif_pos (by simpa using hb2), h2]
    simp

/-- Witness for C7: a non-list `items` value yields an empty result;
an undecodable body yields the parsing error. -/
theorem malformed_items_vs_undecodable_body_witness :
    fetch_wallapop_items c7aApi "" 5 = .ok [] ∧
    fetch_wallapop_items c7bApi "" 5 = .error .parsing :=
  malformed_items_vs_undecodable_body c7aApi c7bApi "" "" 5 5 (some "z")
    rfl rfl (by decide)

/-- C8 counterexample: with thresholds (75, 65, 85), a scorer giving the
title 90 and the description 70 for the single keyword produces an
accepted record whose winning score 90 is the title score, yet
`matched_in_description` is `true` — refuting the claim that the flag is
false whenever the highest qualifying score comes from the title. -/
theorem description_flag_set_despite_title_win :
    (process_wallapop_item c8ratio FUZZY_THRESHOLDS c8item "p" ["kw"]
      none none []).map
      (fun r => (r.match_score, r.matched_in_description)) =
      some (90, true) ∧
    c8ratio "kw" (clean_text (c8item.title.getD "")) = 90 ∧
    c8ratio "kw" (clean_text (c8item.description.getD "")) = 70 := by
  decide

/-- C8 amended: for every accepted listing, `matched_in_description` is
true exactly when at least one keyword's description score strictly
exceeds the description threshold, independently of where the winning
(maximal) score came from. -/
theorem matched_in_description_characterisation
    (ratio : String → String → Nat) (th : Thresholds) (item : RawItem)
    (pname : String) (kws : List String) (mn mx : Option ℚ)
    (excl : List String) (r : ProcessedItem)
    (h : process_wallapop_item ratio th item pname kws mn mx excl = some r) :
    r.matched_in_description =
      kws.any fun kw =>
        decide (th.description < ratio kw
          (clean_text (item.description.getD ""))) := by
  obtain ⟨-, -, hmd, -⟩ :=
    process_item_inv ratio th item pname kws mn mx excl r h
  rw [hmd]
  by_cases hk : kws.isEmpty
  · rw [if_pos hk]
    have hnil : kws = [] := by simpa using hk
    subst hnil; simp
  · rw [if_neg hk, kwScan_flag]

/-- Witness for C8 amended: the record for `c8item` has the flag set,
matching the description-threshold test. -/
theorem matched_in_description_characterisation_witness :
    c8result.matched_in_description =
      (["kw"].any fun kw =>
        decide (FUZZY_THRESHOLDS.description < c8ratio kw
          (clean_text (c8item.description.getD "")))) :=
  matched_in_description_characterisation c8ratio FUZZY_THRESHOLDS c8item
    "p" ["kw"] none none [] c8result (by decide)

/-- C9: when every page is well-formed with exactly `ps ≥ 1` listings
and a cursor always present, the pagination loop performs at most
`⌈b / ps⌉` page fetches for an item budget `b ≥ 1`. -/
theorem pagination_steps_bounded (api : Nat → ApiResponse) (b ps : Nat)
    (l : List RawItem) (n : Nat) (hb : 1 ≤ b) (hps : 1 ≤ ps)
    (hresp : ∀ i, ∃ its c, api i = .resp 200 (.json (.list its) (some c)) ∧
      its.length = ps ∧ c ≠ "")
    (hrun : fetch_loop api b 0 [] = .ok (l, n)) :
    n ≤ (b + ps - 1) / ps := by
  have h := fetch_loop_count_bound api b ps hps hresp b 0 []
    (by simp) (by simpa using hb) l n hrun
  simpa using h

/-- Witness for C9: two-listing pages against a budget of 5 take
3 = ⌈5/2⌉ fetches. -/
theorem pagination_steps_bounded_witness :
    fetch_loop c9api 5 0 [] =
      .ok ([{ id := some "a" }, { id := some "b" }, { id := some "a" },
        { id := some "b" }, { id := some "a" }], 3) ∧
    3 ≤ (5 + 2 - 1) / 2 := by
  have h : fetch_loop c9api 5 0 [] =
      .ok ([{ id := some "a" }, { id := some "b" }, { id := some "a" },
        { id := some "b" }, { id := some "a" }], 3) := by
    simp [fetch_loop, c9api, itemsOf, strTruthy]
  exact ⟨h, pagination_steps_bounded c9api 5 2 _ 3 (by decide) (by decide)
    (fun _ => ⟨[{ id := some "a" }, { id := some "b" }], "k", rfl, rfl,
      by decide⟩) h⟩

/-- C10: a raw listing with no `flags` object, or with a `flags` object
lacking a `reserved` entry, is treated as not reserved — the
reservation test evaluates to false and any accepted record reports
`is_reserved = false`. -/
theorem flags_absent_treated_unreserved (ratio : String → String → Nat)
    (th : Thresholds) (item : RawItem) (pname : String)
    (kws : List String) (mn mx : Option ℚ) (excl : List String)
    (r : ProcessedItem)
    (hflags : item.flags = none ∨
      ∃ f, item.flags = some f ∧ f.reserved = none) :
    reservedOf item = false ∧
    (process_wallapop_item ratio th item pname kws mn mx excl = some r →
      r.is_reserved = false) := by
  have hres : reservedOf item = false := by
    rcases hflags with h | ⟨f, hf, hr⟩
    · simp [reservedOf, h]
    · simp [reservedOf, hf, hr]
  refine ⟨hres, fun hr2 => ?_⟩
  rw [(process_item_inv ratio th item pname kws mn mx excl r hr2).1, hres]

/-- Witness for C10: a listing with no `flags` object is accepted with
`is_reserved = false`. -/
theorem flags_absent_treated_unreserved_witness :
    c10item.flags = none ∧
    (reservedOf c10item = false ∧
    (process_wallapop_item fuzzModel FUZZY_THRESHOLDS c10item "mug" []
      none none [] = some c10result → c10result.is_reserved = false)) :=
  ⟨rfl,
   flags_absent_treated_unreserved fuzzModel FUZZY_THRESHOLDS c10item
     "mug" [] none none [] c10result (Or.inl rfl)⟩
